import Mathlib

/-!
# Verification of the movie-graph RAG core

A shallow embedding of the repository's graph construction
(`network_setup.py`: `MovieGraph.build_graph`), its query operations
(`query_movie_id`, `query_entity_graph`, `all_paths_query`,
`shortest_path_query`), the FAISS search wrapper (`faiss_setup.py`:
`MovieFAISS.search`) and the tool surface (`agentic_tools.py`), together
with theorems settling the specification claims.

Modelling conventions:
  * networkx `MultiDiGraph` is embedded as a node association list
    (node identifier to attribute dictionary, insertion ordered) plus an
    edge list `(source, target, relation)` in insertion order — parallel
    edges are separate list entries, matching the multigraph.
  * Python node identifiers are either `int` (movie ids) or `str`
    (person / genre / year names); `GNode` is that tagged union.
  * Attribute dictionaries are association lists from key to `AttrVal`;
    Python `set` values are kept as insertion-ordered duplicate-free lists.
  * Python values raised as exceptions are modelled with `Except String`:
    `Except.error` is an exception propagating out of a function,
    `Except.ok` a normal return.
  * Dataframe rows are embedded post-parse: the nested `genres` / `cast` /
    `crew` / `keywords` columns appear as the lists of names (and jobs)
    that `ast.literal_eval` plus field extraction produce, scalar columns
    are carried verbatim as strings.
  * `nx.all_simple_paths` is embedded after the current networkx
    implementation (`_all_simple_edge_paths`): a depth-first enumeration
    over the out-edges of a multigraph (one branch per parallel edge),
    excluding nodes already on the current path, yielding the trivial
    single-node path when source equals target, bounded by `cutoff` edges.
  * `nx.shortest_path` on an unweighted graph is embedded as a
    breadth-first search: same-node queries return the single-node path,
    and absence of a returned path coincides with unreachability
    (`NetworkXNoPath`, which `shortest_path_query` converts to `None`).
-/

/-- A networkx node key: Python `int` (movie ids) or `str`
(person / genre / year identifiers). -/
inductive GNode where
  | mid (n : Int)
  | mstr (s : String)
deriving DecidableEq, Repr

/-- A Python attribute value stored on a node: a string, a list of
strings (`keywords`), a set of strings (`roles`, kept as an
insertion-ordered duplicate-free list), or an uninterpreted scalar
carried verbatim (`popularity`, `vote_average`, `overview`). -/
inductive AttrVal where
  | vStr (s : String)
  | vList (l : List String)
  | vSet (l : List String)
  | vRaw (s : String)
deriving DecidableEq, Repr

/-- A Python attribute dictionary, insertion ordered. -/
abbrev AttrDict := List (String × AttrVal)

/-- Look a key up in an attribute dictionary (Python `dict.get`). -/
def dictGet (d : AttrDict) (k : String) : Option AttrVal :=
  match d with
  | [] => none
  | (k₀, v) :: rest => if k₀ = k then some v else dictGet rest k

/-- Set a key in an attribute dictionary: overwrite in place if present,
append otherwise (Python `dict.__setitem__`). -/
def dictSet (d : AttrDict) (k : String) (v : AttrVal) : AttrDict :=
  match d with
  | [] => [(k, v)]
  | (k₀, v₀) :: rest =>
      if k₀ = k then (k₀, v) :: rest else (k₀, v₀) :: dictSet rest k v

/-- Merge new attributes into a dictionary key by key
(networkx `add_node` on an existing node updates the given keys). -/
def dictMerge (d new : AttrDict) : AttrDict :=
  new.foldl (fun acc kv => dictSet acc kv.1 kv.2) d

/-- The embedded `nx.MultiDiGraph`: insertion-ordered node attribute
association list and insertion-ordered multi-edge list
`(source, target, relation)`. -/
structure MGraph where
  nodes : List (GNode × AttrDict)
  edges : List (GNode × GNode × String)
deriving DecidableEq, Repr

/-- The empty graph (`nx.MultiDiGraph()`). -/
def MGraph.empty : MGraph := ⟨[], []⟩

/-- The node keys of the graph, in insertion order. -/
def MGraph.nodeKeys (g : MGraph) : List GNode := g.nodes.map Prod.fst

/-- Association-list lookup on the node dictionary. -/
def nodesLookup (l : List (GNode × AttrDict)) (v : GNode) : Option AttrDict :=
  match l with
  | [] => none
  | (k, d) :: rest => if k = v then some d else nodesLookup rest v

/-- The attribute dictionary of a node, if the node exists. -/
def MGraph.nodeData? (g : MGraph) (v : GNode) : Option AttrDict :=
  nodesLookup g.nodes v

/-- `G.nodes[v]` for a node known to exist (defaulting to the empty
dictionary, which never arises for nodes actually in the graph). -/
def MGraph.nodeData (g : MGraph) (v : GNode) : AttrDict :=
  (g.nodeData? v).getD []

/-- `G.nodes[v].get(key)`. -/
def MGraph.attr (g : MGraph) (v : GNode) (k : String) : Option AttrVal :=
  dictGet (g.nodeData v) k

/-- networkx `add_node`: create the node with the given attributes, or
merge the attributes into an existing node. -/
def MGraph.addNode (g : MGraph) (v : GNode) (attrs : AttrDict) : MGraph :=
  match nodesLookup g.nodes v with
  | some _ =>
      ⟨g.nodes.map (fun kv => if kv.1 = v then (kv.1, dictMerge kv.2 attrs) else kv),
       g.edges⟩
  | none => ⟨g.nodes ++ [(v, attrs)], g.edges⟩

/-- networkx `add_edge` on a `MultiDiGraph`: always appends a fresh
parallel edge, creating missing endpoint nodes with empty attributes. -/
def MGraph.addEdge (g : MGraph) (u v : GNode) (rel : String) : MGraph :=
  let g := if (nodesLookup g.nodes u).isSome then g
           else ⟨g.nodes ++ [(u, [])], g.edges⟩
  let g := if (nodesLookup g.nodes v).isSome then g
           else ⟨g.nodes ++ [(v, [])], g.edges⟩
  ⟨g.nodes, g.edges ++ [(u, v, rel)]⟩

/-- The out-edge targets of `v`, one entry per parallel edge, in edge
insertion order (the multigraph edge view restricted to source `v`). -/
def MGraph.succsE (g : MGraph) (v : GNode) : List GNode :=
  (g.edges.filter (fun e => decide (e.1 = v))).map (fun e => e.2.1)

/-- Keep the first occurrence of each element (the key order of a Python
`dict` built by first insertion). -/
def firstDedup (l : List GNode) : List GNode :=
  l.foldl (fun acc x => if x ∈ acc then acc else acc ++ [x]) []

/-- `G.neighbors(v)` / iteration over `G[v]` on a directed graph: the
distinct successors of `v`, in first-edge-insertion order. -/
def MGraph.succs (g : MGraph) (v : GNode) : List GNode :=
  firstDedup (g.succsE v)

/-- The relation attributes of the parallel edges from `u` to `v`, one
entry per edge, in key (insertion) order: `G[u][v].items()`. -/
def MGraph.edgeRelations (g : MGraph) (u v : GNode) : List String :=
  (g.edges.filter (fun e => decide (e.1 = u ∧ e.2.1 = v))).map (fun e => e.2.2)

/-- `b` is an out-neighbor of `a` (some directed edge `a → b` exists). -/
def MGraph.adj (g : MGraph) (a b : GNode) : Prop := b ∈ g.succsE a

instance (g : MGraph) (a b : GNode) : Decidable (g.adj a b) := by
  unfold MGraph.adj; infer_instance

/-- Python `str.strip()`: drop whitespace from both ends
(implemented structurally on the character list so that concrete
witnesses evaluate inside the kernel). -/
def pyStrip (s : String) : String :=
  String.mk (((s.data.dropWhile Char.isWhitespace).reverse.dropWhile
    Char.isWhitespace).reverse)

/-- Python `str.lower()` (ASCII case mapping, which covers the
identifiers this program builds). -/
def pyLower (s : String) : String := String.mk (s.data.map Char.toLower)

/-- Python `str.upper()`. -/
def pyUpper (s : String) : String := String.mk (s.data.map Char.toUpper)

/-- Python `s.strip().lower()`, the identifier normalization used
throughout the program. -/
def pyNorm (s : String) : String := pyLower (pyStrip s)

/-- A joined `movies_df` row, embedded post-parse: the nested columns
(`genres`, `cast`, `crew`, `keywords`) appear as the name (and job)
lists extracted by `build_graph` from `ast.literal_eval`; scalar columns
are the verbatim cell contents. `crew` entries are `(name, job)`. -/
structure Row where
  id : Int
  title : String
  popularity : String
  vote_average : String
  overview : String
  release_date : String
  keywords : List String
  genres : List String
  cast : List String
  crew : List (String × String)
  budget : String
  revenue : String
  original_language : String
  original_title : String
deriving DecidableEq, Repr

/-- `row["release_date"].split("-")[0]`: the characters before the
first dash (the whole string when no dash occurs). -/
def launchYear (r : Row) : String :=
  String.mk (r.release_date.data.takeWhile (fun c => decide (c ≠ Char.ofNat 45)))

/-- The movie node attribute dictionary written by `build_graph`. -/
def movieAttrs (r : Row) : AttrDict :=
  [("label", .vStr "movie"),
   ("title", .vStr (pyNorm r.title)),
   ("popularity", .vRaw r.popularity),
   ("vote_average", .vRaw r.vote_average),
   ("overview", .vRaw r.overview),
   ("launch_year", .vStr (launchYear r)),
   ("keywords", .vList r.keywords)]

/-- Normalize a crew job and collapse everything outside
director / producer / writer to `supporting_crew`. -/
def classifyJob (job : String) : String :=
  let j := pyNorm job
  if j = "director" ∨ j = "producer" ∨ j = "writer" then j
  else "supporting_crew"

/-- The inverse relation chosen for a (classified) crew job. -/
def crewRelation (job : String) : String :=
  if job = "director" then "DIRECTED_MOVIES"
  else if job = "producer" then "PRODUCED_MOVIES"
  else if job = "writer" then "WROTE_MOVIES"
  else "SUPPORTED_MOVIES"

/-- Insert an element into a Python-set-as-list (`set.add`): no effect
when the element is already present, append otherwise. -/
def setAdd (l : List String) (x : String) : List String :=
  if x ∈ l then l else l ++ [x]

/-- `d.setdefault("roles", set()).add(role)` on a node dictionary.
The `roles` key is only ever written by this function and always holds a
set, so the non-set shape cannot occur in any built graph. -/
def rolesAdd (d : AttrDict) (role : String) : AttrDict :=
  match dictGet d "roles" with
  | some (.vSet l) => dictSet d "roles" (.vSet (setAdd l role))
  | some _ => d
  | none => dictSet d "roles" (.vSet [role])

/-- The person-node step shared by the cast and crew loops:
create the node with `label="person", roles={role}` when absent,
otherwise add `role` to the existing `roles` set (leaving any other
attributes, including a non-person `label`, untouched). -/
def ensurePerson (g : MGraph) (name role : String) : MGraph :=
  match nodesLookup g.nodes (.mstr name) with
  | none => g.addNode (.mstr name) [("label", .vStr "person"), ("roles", .vSet [role])]
  | some d => ⟨g.nodes.map (fun kv =>
      if kv.1 = GNode.mstr name then (kv.1, rolesAdd d role) else kv), g.edges⟩

/-- The `actor_nodes` list accumulated by the cast loop of one row. -/
def actorNodes (r : Row) : List String := r.cast.map (fun c => pyNorm c)

/-- The `director_nodes` list accumulated by the crew loop of one row. -/
def directorNodes (r : Row) : List String :=
  (r.crew.filter (fun m => decide (classifyJob m.2 = "director"))).map
    (fun m => pyNorm m.1)

/-- The body of the per-row genre loop (`movie_id` is the row's id). -/
def genreStep (movie_id : Int) (g : MGraph) (gn : String) : MGraph :=
  let gname := pyNorm gn
  let g := g.addNode (.mstr gname) [("label", .vStr "genre")]
  let g := g.addEdge (.mid movie_id) (.mstr gname) "MOVIE_HAS_GENRE"
  g.addEdge (.mstr gname) (.mid movie_id) "GENRE_OF_MOVIES"

/-- The body of the per-row cast loop. -/
def castStep (movie_id : Int) (g : MGraph) (c : String) : MGraph :=
  let aname := pyNorm c
  let g := ensurePerson g aname "actor"
  let g := g.addEdge (.mid movie_id) (.mstr aname) "MOVIE_HAS_ACTOR"
  g.addEdge (.mstr aname) (.mid movie_id) "ACTED_IN_MOVIES"

/-- The body of the per-row crew loop (`m` is `(name, job)`). -/
def crewStep (movie_id : Int) (g : MGraph) (m : String × String) : MGraph :=
  let job := classifyJob m.2
  let cname := pyNorm m.1
  let g := ensurePerson g cname job
  let g := g.addEdge (.mid movie_id) (.mstr cname) ("MOVIE_HAS_" ++ pyUpper job)
  g.addEdge (.mstr cname) (.mid movie_id) (crewRelation job)

/-- The body of the actor-director cross-product loop for one actor. -/
def pairStep (a : String) (g : MGraph) (d : String) : MGraph :=
  let g := g.addEdge (.mstr a) (.mstr d) "ACTOR_WORKED_WITH_DIRECTOR"
  g.addEdge (.mstr d) (.mstr a) "DIRECTOR_WORKED_WITH_ACTOR"

/-- One iteration of the `build_graph` row loop. -/
def processRow (g : MGraph) (r : Row) : MGraph :=
  let y := launchYear r
  let g := g.addNode (.mid r.id) (movieAttrs r)
  let g := g.addNode (.mstr y) [("label", .vStr "date")]
  let g := g.addEdge (.mid r.id) (.mstr y) "MOVIE_RELEASED_ON"
  let g := g.addEdge (.mstr y) (.mid r.id) "YEAR_RELEASED_MOVIES"
  let g := r.genres.foldl (genreStep r.id) g
  let g := r.cast.foldl (castStep r.id) g
  let g := r.crew.foldl (crewStep r.id) g
  (actorNodes r).foldl (fun g a => (directorNodes r).foldl (pairStep a) g) g

/-- `MovieGraph.build_graph`: one pass over the joined, id-deduplicated,
release-date-complete dataframe. -/
def build_graph (rows : List Row) : MGraph :=
  rows.foldl processRow MGraph.empty

/-- The edge list appended by one `build_graph` row iteration, in
insertion order: the release pair first, then the genre, cast and crew
pairs, then the actor-director cross product. -/
def rowEdges (r : Row) : List (GNode × GNode × String) :=
  (GNode.mid r.id, GNode.mstr (launchYear r), "MOVIE_RELEASED_ON") ::
  (GNode.mstr (launchYear r), GNode.mid r.id, "YEAR_RELEASED_MOVIES") ::
  (r.genres.flatMap (fun gn =>
    [(GNode.mid r.id, GNode.mstr (pyNorm gn), "MOVIE_HAS_GENRE"),
     (GNode.mstr (pyNorm gn), GNode.mid r.id, "GENRE_OF_MOVIES")]) ++
   (r.cast.flatMap (fun c =>
    [(GNode.mid r.id, GNode.mstr (pyNorm c), "MOVIE_HAS_ACTOR"),
     (GNode.mstr (pyNorm c), GNode.mid r.id, "ACTED_IN_MOVIES")]) ++
   (r.crew.flatMap (fun m =>
    [(GNode.mid r.id, GNode.mstr (pyNorm m.1),
       "MOVIE_HAS_" ++ pyUpper (classifyJob m.2)),
     (GNode.mstr (pyNorm m.1), GNode.mid r.id, crewRelation (classifyJob m.2))]) ++
   (actorNodes r).flatMap (fun a => (directorNodes r).flatMap (fun d =>
    [(GNode.mstr a, GNode.mstr d, "ACTOR_WORKED_WITH_DIRECTOR"),
     (GNode.mstr d, GNode.mstr a, "DIRECTOR_WORKED_WITH_ACTOR")])))))

/-- The invariant of every queued breadth-first path (stored reversed):
nonempty, anchored at the search source, and edge-consistent. -/
def QInv (g : MGraph) (s : GNode) (q : List GNode) : Prop :=
  q ≠ [] ∧ q.getLast? = some s ∧ q.reverse.Chain' g.adj

/-- `MovieGraph.query_movie_id`: `None` when the id is not a node,
otherwise the node attribute dictionary. -/
def query_movie_id (g : MGraph) (movie_id : Int) : Option AttrDict :=
  if GNode.mid movie_id ∈ g.nodeKeys then some (g.nodeData (.mid movie_id))
  else none

/-- The node descriptor built by `all_paths_query`: id, label,
title-if-movie, roles-if-person, and the relation list to the next path
node for every hop but the last. -/
structure PathDesc where
  node : GNode
  label : Option AttrVal
  title : Option AttrVal
  roles : Option AttrVal
  relation_to_next : Option (List String)
deriving DecidableEq, Repr

/-- The descriptor fields shared by both path queries. -/
def descLabel (g : MGraph) (v : GNode) : Option AttrVal := g.attr v "label"

/-- `node_info.get("title") if node_info.get("label") == "movie" else None`. -/
def descTitle (g : MGraph) (v : GNode) : Option AttrVal :=
  if g.attr v "label" = some (.vStr "movie") then g.attr v "title" else none

/-- `node_info.get("roles") if node_info.get("label") == "person" else None`. -/
def descRoles (g : MGraph) (v : GNode) : Option AttrVal :=
  if g.attr v "label" = some (.vStr "person") then g.attr v "roles" else none

/-- The `path_data` list that `all_paths_query` builds from one node
path: each node keeps its metadata, plus the relation list of the
parallel edges to the following node (absent on the final node). -/
def annotatePath (g : MGraph) : List GNode → List PathDesc
  | [] => []
  | [v] => [⟨v, descLabel g v, descTitle g v, descRoles g v, none⟩]
  | v :: w :: rest =>
      ⟨v, descLabel g v, descTitle g v, descRoles g v,
        some (g.edgeRelations v w)⟩ :: annotatePath g (w :: rest)

/-- The depth-first enumeration inside `nx.all_simple_paths`
(`_all_simple_edge_paths`): `pre` is the node path already fixed, `v`
the node just entered, `fuel` the number of edges that may still be
appended. The current node is emitted as a completed path when it is
the target, and the search branches once per out-edge (so parallel
edges contribute one branch each, as in the multigraph algorithm),
skipping nodes already on the path. -/
def spAux (g : MGraph) (t : GNode) : Nat → List GNode → GNode → List (List GNode)
  | 0, pre, v => if v = t then [pre ++ [v]] else []
  | n + 1, pre, v =>
      (if v = t then [pre ++ [v]] else []) ++
      ((g.succsE v).filter (fun w => decide (w ∉ pre ++ [v]))).flatMap
        (fun w => spAux g t n (pre ++ [v]) w)

/-- `nx.all_simple_paths(G, source, target, cutoff)` for nodes known to
be present (the caller guards membership): every simple node path from
`source` to `target` with at most `cutoff` edges, including the trivial
single-node path when the two coincide. -/
def nxAllSimplePaths (g : MGraph) (source target : GNode) (cutoff : Nat) :
    List (List GNode) :=
  spAux g target cutoff [] source

/-- `MovieGraph.all_paths_query`: empty when either endpoint is absent,
otherwise the annotated simple paths up to `max_len` edges. -/
def all_paths_query (g : MGraph) (node1 node2 : GNode) (max_len : Nat := 3) :
    List (List PathDesc) :=
  if node1 ∈ g.nodeKeys ∧ node2 ∈ g.nodeKeys then
    (nxAllSimplePaths g node1 node2 max_len).map (annotatePath g)
  else []

/-- One breadth-first step queue: paths are stored reversed (current
node first, source last). `visited` ensures each node is enqueued at
most once, so `nodes.length + 1` dequeue steps explore the whole graph. -/
def bfsAux (g : MGraph) (t : GNode) :
    Nat → List (List GNode) → List GNode → Option (List GNode)
  | 0, _, _ => none
  | _ + 1, [], _ => none
  | n + 1, p :: queue, visited =>
      match p with
      | [] => none
      | cur :: _ =>
        if cur = t then some p.reverse
        else
          let nexts := (g.succs cur).filter (fun w => decide (w ∉ visited))
          bfsAux g t n (queue ++ nexts.map (fun w => w :: p)) (visited ++ nexts)

/-- `nx.shortest_path(G, source, target)` on the unweighted multigraph:
a breadth-first search from the source. Returns `none` exactly when
networkx raises `NetworkXNoPath`. -/
def nxShortestPath (g : MGraph) (source target : GNode) : Option (List GNode) :=
  bfsAux g target (g.nodes.length + 1) [[source]] [source]

/-- The node descriptor built by `shortest_path_query` (no `roles`
field, unlike `all_paths_query`). -/
structure SPDesc where
  node : GNode
  label : Option AttrVal
  title : Option AttrVal
  relation_to_next : Option (List String)
deriving DecidableEq, Repr

/-- The `path_with_rels` annotation loop of `shortest_path_query`. -/
def annotateSP (g : MGraph) : List GNode → List SPDesc
  | [] => []
  | [v] => [⟨v, descLabel g v, descTitle g v, none⟩]
  | v :: w :: rest =>
      ⟨v, descLabel g v, descTitle g v, some (g.edgeRelations v w)⟩ ::
        annotateSP g (w :: rest)

/-- `MovieGraph.shortest_path_query`: `None` when an endpoint is absent
or networkx finds no path, otherwise the annotated shortest path. -/
def shortest_path_query (g : MGraph) (source target : GNode) :
    Option (List SPDesc) :=
  if source ∈ g.nodeKeys ∧ target ∈ g.nodeKeys then
    (nxShortestPath g source target).map (annotateSP g)
  else none

/-- A Python argument that is either an `int` or a `str`
(`isinstance(entity, int)` dispatch). -/
abbrev PyVal := Int ⊕ String

/-- The exception raised by `entity.strip()` when `entity` is an `int`
that fell through the `isinstance` branch. -/
def intStripError : String :=
  "AttributeError: 'int' object has no attribute 'strip'"

/-- One element of the `query_entity_graph` result list. -/
structure EntityResult where
  node : GNode
  label : Option AttrVal
  node_data : AttrDict
  neighbors : List (GNode × String)
deriving DecidableEq, Repr

/-- The neighbor loop of `query_entity_graph`: every parallel out-edge
of `eid`, skipped when a truthy relation filter disagrees
(`if relation and rel != relation: continue`; `None` and the empty
string are falsy and disable the filter). -/
def entityNeighbors (g : MGraph) (eid : GNode) (relation : Option String) :
    List (GNode × String) :=
  (g.succs eid).flatMap (fun nbr =>
    (g.edgeRelations eid nbr).filterMap (fun rel =>
      match relation with
      | none => some (nbr, rel)
      | some rf => if rf ≠ "" ∧ rel ≠ rf then none else some (nbr, rel)))

/-- The per-id result loop of `query_entity_graph`, skipping resolved
ids that are not graph nodes (`if eid not in self.Graph: continue`). -/
def entityResults (g : MGraph) (eids : List GNode) (relation : Option String) :
    List EntityResult :=
  eids.filterMap (fun eid =>
    if eid ∈ g.nodeKeys then
      some ⟨eid, g.attr eid "label", g.nodeData eid, entityNeighbors g eid relation⟩
    else none)

/-- `MovieGraph.query_entity_graph`. An `int` entity that is a node is
resolved directly; any other `int` falls into the string branch, where
`entity.strip()` raises `AttributeError`. A string entity is trimmed
and lowercased, matched case-insensitively against the dataframe
titles, then tried as a direct node identifier, and otherwise yields
the empty list. -/
def query_entity_graph (g : MGraph) (df : List Row) (entity : PyVal)
    (relation : Option String := none) : Except String (List EntityResult) :=
  match entity with
  | .inl n =>
      if GNode.mid n ∈ g.nodeKeys then
        .ok (entityResults g [.mid n] relation)
      else .error intStripError
  | .inr s =>
      let e := pyNorm s
      let titleMatches := df.filter (fun r => decide (pyLower r.title = pyLower e))
      if titleMatches = [] then
        if GNode.mstr e ∈ g.nodeKeys then .ok (entityResults g [.mstr e] relation)
        else .ok []
      else .ok (entityResults g (titleMatches.map (fun r => GNode.mid r.id)) relation)

/-- The movie set computed by `FilterMoviesByPersonTool.forward`:
out-neighbors of the resolved node whose `label` attribute is
`"movie"`. -/
def personMovieSet (g : MGraph) (name : String) : List GNode :=
  (g.succs (.mstr name)).filter (fun n => decide (g.attr n "label" = some (.vStr "movie")))

/-- The body of `FilterMoviesByPersonTool.forward` for a string
`person_name`: empty when the normalized name is not a node, otherwise
the candidate ids filtered by membership in the movie-neighbor set. -/
def filter_movies_by_person (g : MGraph) (person_name : String)
    (movie_ids : List Int) : List Int :=
  let p := pyNorm person_name
  if GNode.mstr p ∈ g.nodeKeys then
    movie_ids.filter (fun m => decide (GNode.mid m ∈ personMovieSet g p))
  else []

/-- The persisted FAISS artifact pair, treated as a black-box
nearest-neighbor oracle: `searchFn q k` is the raw index row list
`I[0]` returned by `index.search` for the encoded query. -/
structure FaissIndex where
  searchFn : String → Nat → List Int

/-- `MovieFAISS` state after `__init__` / `load`: `index` is `None`
when neither artifact could be loaded, and `index_to_id` maps index
rows to movie ids. -/
structure MovieFAISS where
  index : Option FaissIndex
  index_to_id : List (Int × Int)

/-- Python `dict` lookup on the row-to-id mapping. -/
def idMapLookup (m : List (Int × Int)) (i : Int) : Option Int :=
  match m with
  | [] => none
  | (k, v) :: rest => if k = i then some v else idMapLookup rest i

/-- The exception raised by `self.index.search` when the index was
never built or loaded (`self.index` is `None`). -/
def noneSearchError : String :=
  "AttributeError: 'NoneType' object has no attribute 'search'"

/-- `MovieFAISS.search`: encode the query with the `"query: "` framing,
search the index, and map raw rows back to movie ids; an unloaded index
raises `AttributeError`, and a row absent from the mapping raises
`KeyError`. -/
def faissSearch (st : MovieFAISS) (query_text : String) (top_k : Nat := 15) :
    Except String (List Int) :=
  match st.index with
  | none => .error noneSearchError
  | some idx =>
      (idx.searchFn ("query: " ++ query_text) top_k).mapM (fun i =>
        match idMapLookup st.index_to_id i with
        | some v => Except.ok v
        | none => Except.error ("KeyError: " ++ toString i))

/-- The movie json assembled by `FaissTool.forward` from a dataframe
row. -/
structure MovieJson where
  id : Int
  overview : String
  original_title : String
  original_language : String
  release_date : String
  budget : String
  revenue : String
deriving DecidableEq, Repr

/-- `FaissTool.forward` row projection. -/
def movieJson (r : Row) : MovieJson :=
  ⟨r.id, r.overview, r.original_title, r.original_language,
   r.release_date, r.budget, r.revenue⟩

/-- One element of a tool response list: either a payload record or
the structured `{"error": ...}` record produced by an `except` clause. -/
inductive ToolItem (α : Type) where
  | result (a : α)
  | errorRecord (msg : String)
deriving DecidableEq, Repr

/-- `QueryGraphTool.forward`: the underlying query wrapped in
`try/except`, so an exception becomes a one-element error-record list
and nothing propagates. -/
def queryGraphToolForward (g : MGraph) (df : List Row) (entity : PyVal)
    (relation : Option String := none) :
    Except String (List (ToolItem EntityResult)) :=
  match query_entity_graph g df entity relation with
  | .ok rs => .ok (rs.map .result)
  | .error e => .ok [.errorRecord e]

/-- `QueryMovieIDTool.forward` (no `try/except`; the falsy check
`if not node_data` also converts an empty attribute dictionary into the
error record). The underlying lookup is total on `int` input, so the
missing handler cannot be observed here. -/
def queryMovieIDToolForward (g : MGraph) (movie_id : Int) :
    Except String (ToolItem AttrDict) :=
  .ok (match query_movie_id g movie_id with
    | none => .errorRecord ("Movie ID " ++ toString movie_id ++ " not found")
    | some [] => .errorRecord ("Movie ID " ++ toString movie_id ++ " not found")
    | some d => .result d)

/-- `NearestGraphTool.forward`: `try/except` around `all_paths_query`
(total in this embedding), with `paths if paths else []`. The tool
passes its string arguments directly as graph node identifiers. -/
def nearestGraphToolForward (g : MGraph) (entity1 entity2 : String) :
    Except String (List (ToolItem (List PathDesc))) :=
  let paths := all_paths_query g (.mstr entity1) (.mstr entity2)
  .ok ((if paths = [] then [] else paths).map .result)

/-- `FaissTool.forward`: `try/except` around the FAISS search and the
dataframe join, so an unloaded index or mapping miss becomes a
one-element error-record list. -/
def faissToolForward (st : MovieFAISS) (df : List Row)
    (retrieval_query : String) (top_k : Nat := 20) :
    Except String (List (ToolItem MovieJson)) :=
  match faissSearch st retrieval_query top_k with
  | .error e => .ok [.errorRecord e]
  | .ok ids =>
      .ok ((ids.filterMap (fun i => (df.find? (fun r => decide (r.id = i))).map movieJson)).map .result)

/-- `FilterMoviesByPersonTool.forward` over a Python argument: there is
no `try/except`, so the `AttributeError` raised by
`person_name.strip()` on an `int` argument propagates to the caller. -/
def filterMoviesByPersonToolForward (g : MGraph) (person_name : PyVal)
    (movie_ids : List Int) : Except String (List Int) :=
  match person_name with
  | .inl _ => .error intStripError
  | .inr s => .ok (filter_movies_by_person g s movie_ids)

/-! ## Declarative path specification and sample data -/

/-- `p` is a directed path in `g` from `A` to `B` that visits no node
more than once and has at most `k` edges (`k + 1` nodes). The trivial
single-node path `[A]` qualifies exactly when `A = B`. -/
def IsSimplePathUpTo (g : MGraph) (A B : GNode) (k : Nat) (p : List GNode) : Prop :=
  p.head? = some A ∧ p.getLast? = some B ∧ p.Nodup ∧
    p.Chain' g.adj ∧ p.length ≤ k + 1

/-- Some directed path leads from `A` to `B` in `g`. -/
def Reachable (g : MGraph) (A B : GNode) : Prop :=
  ∃ p : List GNode, p.head? = some A ∧ p.getLast? = some B ∧ p.Chain' g.adj

/-- A sample dataframe row (movie 1, one genre, one actor, one
director), used to instantiate hypotheses of the proved theorems. -/
def rowA : Row :=
  { id := 1, title := "M1", popularity := "p", vote_average := "v",
    overview := "o1", release_date := "1999-05-01", keywords := [],
    genres := ["Action"], cast := ["Jane Doe"], crew := [("John Roe", "Director")],
    budget := "b", revenue := "r", original_language := "en", original_title := "M1" }

/-- A second sample row sharing the actor and the director of `rowA`,
so the built graph carries parallel duplicate
`ACTOR_WORKED_WITH_DIRECTOR` edges. -/
def rowB : Row :=
  { id := 2, title := "M2", popularity := "p", vote_average := "v",
    overview := "o2", release_date := "2000-01-01", keywords := [],
    genres := [], cast := ["Jane Doe"], crew := [("John Roe", "Director")],
    budget := "b", revenue := "r", original_language := "en", original_title := "M2" }

/-- The sample dataframe. -/
def dfS : List Row := [rowA, rowB]

/-- The sample graph built from the sample dataframe. -/
def gS : MGraph := build_graph dfS

/-- First node descriptor of the duplicate-relation sample path: the
shared actor, whose hop to the director is labeled by the two parallel
`ACTOR_WORKED_WITH_DIRECTOR` edges (one per shared movie). -/
def dupDescActor : PathDesc :=
  ⟨.mstr "jane doe", some (.vStr "person"), none, some (.vSet ["actor"]),
    some ["ACTOR_WORKED_WITH_DIRECTOR", "ACTOR_WORKED_WITH_DIRECTOR"]⟩

/-- Final node descriptor of the duplicate-relation sample path. -/
def dupDescDirector : PathDesc :=
  ⟨.mstr "john roe", some (.vStr "person"), none, some (.vSet ["director"]), none⟩

/-- The annotated actor-to-director path of the sample graph. -/
def dupPath : List PathDesc := [dupDescActor, dupDescDirector]

/-! ## Theorems -/

/-- C3: `filterMoviesByPerson(p, ids)` returns a sublist of `ids`:
every returned id occurs in `ids`, in the input's relative order — the
input restricted to the person's movie-neighbor set (and the empty list
when the normalized name is not a graph node). -/
theorem filter_movies_sublist_order (g : MGraph) (person : String) (ids : List Int) :
    (filter_movies_by_person g person ids).Sublist ids ∧
    filter_movies_by_person g person ids =
      (if GNode.mstr (pyNorm person) ∈ g.nodeKeys then
        ids.filter (fun m => decide (GNode.mid m ∈ personMovieSet g (pyNorm person)))
      else []) := by
  constructor
  · by_cases h : GNode.mstr (pyNorm person) ∈ g.nodeKeys <;>
      simp [filter_movies_by_person, h, List.filter_sublist, List.nil_sublist]
  · rfl

/-- C6: `query_movie_id` returns the not-found marker `None` exactly
for ids that are not graph nodes, returns the attribute dictionary
otherwise, and the marker is distinguishable from the answer for a
movie node whose attribute dictionary is empty. -/
theorem query_movie_id_marker :
    (∀ (g : MGraph) (i : Int),
        query_movie_id g i = none ↔ GNode.mid i ∉ g.nodeKeys) ∧
    query_movie_id ⟨[(GNode.mid 5, [])], []⟩ 5 = some [] ∧
    (none : Option AttrDict) ≠ some [] := by
  refine ⟨?_, by decide, by decide⟩
  intro g i
  unfold query_movie_id
  split
  · next h => simp [h]
  · next h => simp [h]

/-- C10: `FilterMoviesByPersonTool.forward` never checks that the
resolved node is labeled `person`: whenever the lowercased trimmed name
is the identifier of any graph node, the candidates are filtered
against that node's movie neighbors. -/
theorem filter_movies_ignores_label (g : MGraph) (person : String) (ids : List Int)
    (h : GNode.mstr (pyNorm person) ∈ g.nodeKeys) :
    filter_movies_by_person g person ids =
      ids.filter (fun m => decide (GNode.mid m ∈ personMovieSet g (pyNorm person))) := by
  unfold filter_movies_by_person
  simp [h]

set_option maxRecDepth 10000 in
/-- C10 witness: `" Action"` resolves to the sample genre node (not a
person), and the candidate list is filtered against its movie
neighbors, yielding a non-empty result. -/
theorem filter_movies_ignores_label_witness :
    GNode.mstr (pyNorm " Action") ∈ gS.nodeKeys ∧
    gS.attr (GNode.mstr (pyNorm " Action")) "label" = some (.vStr "genre") ∧
    filter_movies_by_person gS " Action" [1, 2, 99] = [1] := by
  refine ⟨by decide, by decide, ?_⟩
  rw [filter_movies_ignores_label gS " Action" [1, 2, 99] (by decide)]
  decide

set_option maxRecDepth 10000 in
/-- C5 counterexample: an integer entity that resolves to no graph node
does not produce an empty result — `query_entity_graph` falls into the
string branch and `entity.strip()` raises `AttributeError`. -/
theorem query_entity_graph_int_raises :
    query_entity_graph gS dfS (Sum.inl 999) none = Except.error intStripError ∧
    query_entity_graph gS dfS (Sum.inl 999) none ≠ Except.ok [] := by
  have h : query_entity_graph gS dfS (Sum.inl 999) none = Except.error intStripError := by
    rfl
  refine ⟨h, ?_⟩
  rw [h]
  intro hcontra
  exact Except.noConfusion hcontra

/-- C5 amended: for every string entity whose case-insensitive title
match is empty and whose lowercased trimmed form is not a graph node,
`query_entity_graph` returns the empty list without raising; integer
entities only avoid the `AttributeError` when they are graph nodes. -/
theorem query_entity_graph_unresolved_string_empty (g : MGraph) (df : List Row)
    (s : String)
    (h1 : df.filter (fun r => decide (pyLower r.title = pyLower (pyNorm s))) = [])
    (h2 : GNode.mstr (pyNorm s) ∉ g.nodeKeys) :
    query_entity_graph g df (Sum.inr s) none = Except.ok [] := by
  unfold query_entity_graph
  simp [h1, h2]

set_option maxRecDepth 10000 in
/-- C5 witness: the category label `"directors"` matches no title and
no node of the sample graph, and returns the empty list. -/
theorem query_entity_graph_unresolved_string_empty_witness :
    query_entity_graph gS dfS (Sum.inr "directors") none = Except.ok [] :=
  query_entity_graph_unresolved_string_empty gS dfS "directors" (by decide) (by decide)

/-- C7 counterexample: `FilterMoviesByPersonTool.forward` has no
`try/except`, so the `AttributeError` raised inside it by a non-string
`person_name` propagates to the caller instead of becoming a structured
error record. -/
theorem filter_tool_propagates_exception :
    filterMoviesByPersonToolForward gS (Sum.inl 7) [1, 2] =
      Except.error intStripError := by
  rfl

/-- C7 amended: `query_graph`, `nearest_path` and `semantic_search`
convert any exception of the underlying query into a structured
error-record response (the tool always returns a well-formed value),
and `query_movie_by_id` is total on integer input; only
`filter_movies_by_person` lacks a handler and can propagate. -/
theorem tool_boundary_error_records :
    (∀ (g : MGraph) (df : List Row) (e : PyVal) (rel : Option String),
        ∃ out, queryGraphToolForward g df e rel = Except.ok out) ∧
    (∀ (g : MGraph) (e1 e2 : String),
        ∃ out, nearestGraphToolForward g e1 e2 = Except.ok out) ∧
    (∀ (st : MovieFAISS) (df : List Row) (q : String) (k : Nat),
        ∃ out, faissToolForward st df q k = Except.ok out) ∧
    (∀ (g : MGraph) (i : Int),
        ∃ out, queryMovieIDToolForward g i = Except.ok out) := by
  refine ⟨?_, ?_, ?_, ?_⟩
  · intro g df e rel
    unfold queryGraphToolForward
    cases query_entity_graph g df e rel with
    | ok rs => exact ⟨rs.map .result, rfl⟩
    | error m => exact ⟨[.errorRecord m], rfl⟩
  · intro g e1 e2
    exact ⟨_, rfl⟩
  · intro st df q k
    unfold faissToolForward
    cases faissSearch st q k with
    | ok ids => exact ⟨_, rfl⟩
    | error m => exact ⟨[.errorRecord m], rfl⟩
  · intro g i
    exact ⟨_, rfl⟩

/-- C8 counterexample: `semantic_search` with the vector index unbuilt
(`self.index is None`) returns a one-element error-record list, not the
empty list. -/
theorem faiss_tool_unbuilt_not_empty :
    faissToolForward ⟨none, []⟩ dfS "space adventure" 20 =
      Except.ok [ToolItem.errorRecord noneSearchError] ∧
    faissToolForward ⟨none, []⟩ dfS "space adventure" 20 ≠
      Except.ok ([] : List (ToolItem MovieJson)) := by
  have h : faissToolForward ⟨none, []⟩ dfS "space adventure" 20 =
      Except.ok [ToolItem.errorRecord noneSearchError] := rfl
  refine ⟨h, ?_⟩
  rw [h]
  intro hcontra
  have := Except.ok.inj hcontra
  exact List.noConfusion this

/-- C8 amended: with an unbuilt index the FAISS tool returns a
one-element structured error record (the `AttributeError` from
`None.search` is caught at the tool boundary) and never raises. -/
theorem faiss_tool_unbuilt_error_record (st : MovieFAISS) (df : List Row)
    (q : String) (k : Nat) (h : st.index = none) :
    faissToolForward st df q k =
      Except.ok [ToolItem.errorRecord noneSearchError] := by
  unfold faissToolForward faissSearch
  rw [h]

/-- C8 witness: a concrete unloaded FAISS state. -/
theorem faiss_tool_unbuilt_error_record_witness :
    faissToolForward ⟨none, []⟩ dfS "murder mystery" 20 =
      Except.ok [ToolItem.errorRecord noneSearchError] :=
  faiss_tool_unbuilt_error_record ⟨none, []⟩ dfS "murder mystery" 20 rfl

/-- The first descriptor emitted by `annotatePath` describes the first
path node. -/
theorem annotatePath_head_node (g : MGraph) (w : GNode) (rest : List GNode)
    (d : PathDesc) (h : (annotatePath g (w :: rest)).head? = some d) :
    d.node = w := by
  cases rest with
  | nil => simp [annotatePath] at h; simp [← h]
  | cons x rest2 => simp [annotatePath] at h; simp [← h]

/-- Consecutive descriptors of `annotatePath` carry the relation list
of the parallel edges between their nodes. -/
theorem annotatePath_hop (g : MGraph) :
    ∀ (p : List GNode) (i : Nat) (d dnext : PathDesc),
      (annotatePath g p)[i]? = some d →
      (annotatePath g p)[i + 1]? = some dnext →
      d.relation_to_next = some (g.edgeRelations d.node dnext.node) := by
  intro p
  induction p with
  | nil => intro i d dnext hd hdn; simp [annotatePath] at hd
  | cons v rest ih =>
    intro i d dnext hd hdn
    cases rest with
    | nil =>
      cases i with
      | zero => simp [annotatePath] at hdn
      | succ j => simp [annotatePath] at hd
    | cons w rest2 =>
      cases i with
      | zero =>
        simp only [annotatePath, List.getElem?_cons_zero, Option.some.injEq] at hd
        have hdn0 : (annotatePath g (w :: rest2))[0]? = some dnext := by
          simpa [annotatePath] using hdn
        have hw : dnext.node = w := by
          apply annotatePath_head_node g w rest2 dnext
          cases h2 : annotatePath g (w :: rest2) with
          | nil => rw [h2] at hdn0; simp at hdn0
          | cons x xs =>
            rw [h2] at hdn0
            simp at hdn0
            simp [h2, hdn0]
        rw [← hd, hw]
      | succ j =>
        have hd2 : (annotatePath g (w :: rest2))[j]? = some d := by
          simpa [annotatePath] using hd
        have hdn2 : (annotatePath g (w :: rest2))[j + 1]? = some dnext := by
          simpa [annotatePath] using hdn
        exact ih j d dnext hd2 hdn2

/-- C9 (amended): every consecutive hop of every path returned by
`all_paths_query` is annotated with exactly the relation names of the
parallel edges from the earlier node to the next — one entry per edge,
so a relation repeated on parallel edges appears multiple times. -/
theorem all_paths_hop_relations (g : MGraph) (A B : GNode) (k : Nat)
    (pd : List PathDesc) (hpd : pd ∈ all_paths_query g A B k)
    (i : Nat) (d dnext : PathDesc)
    (hd : pd[i]? = some d) (hdn : pd[i + 1]? = some dnext) :
    d.relation_to_next = some (g.edgeRelations d.node dnext.node) := by
  unfold all_paths_query at hpd
  split at hpd
  · obtain ⟨p, _, rfl⟩ := List.mem_map.mp hpd
    exact annotatePath_hop g p i d dnext hd hdn
  · simp at hpd

set_option maxRecDepth 10000 in
/-- C9 witness: a concrete hop of the sample graph, annotated with the
relation list of its two parallel edges. -/
theorem all_paths_hop_relations_witness :
    dupPath ∈ all_paths_query gS (.mstr "jane doe") (.mstr "john roe") 1 ∧
    dupDescActor.relation_to_next =
      some (gS.edgeRelations dupDescActor.node dupDescDirector.node) :=
  ⟨by decide,
   all_paths_hop_relations gS (.mstr "jane doe") (.mstr "john roe") 1 dupPath
     (by decide) 0 dupDescActor dupDescDirector (by decide) (by decide)⟩

set_option maxRecDepth 10000 in
/-- C9 counterexample: the hop annotation is not duplicate-free — in
the sample graph the actor-to-director hop carries the relation
`ACTOR_WORKED_WITH_DIRECTOR` twice, once per parallel edge. -/
theorem all_paths_hop_relations_duplicate :
    ((all_paths_query gS (.mstr "jane doe") (.mstr "john roe") 1).head?.bind
        List.head?).map PathDesc.relation_to_next =
      some (some ["ACTOR_WORKED_WITH_DIRECTOR", "ACTOR_WORKED_WITH_DIRECTOR"]) ∧
    ¬ (["ACTOR_WORKED_WITH_DIRECTOR", "ACTOR_WORKED_WITH_DIRECTOR"] :
        List String).Nodup := by
  constructor
  · decide
  · decide

/-- `add_node` never touches the edge list. -/
theorem addNode_edges (g : MGraph) (v : GNode) (a : AttrDict) :
    (g.addNode v a).edges = g.edges := by
  unfold MGraph.addNode
  cases nodesLookup g.nodes v <;> rfl

/-- `add_edge` appends exactly one edge. -/
theorem addEdge_edges (g : MGraph) (u v : GNode) (rel : String) :
    (g.addEdge u v rel).edges = g.edges ++ [(u, v, rel)] := by
  unfold MGraph.addEdge
  dsimp only
  split <;> split <;> rfl

/-- The person-node step never touches the edge list. -/
theorem ensurePerson_edges (g : MGraph) (n ro : String) :
    (ensurePerson g n ro).edges = g.edges := by
  unfold ensurePerson
  cases h : nodesLookup g.nodes (GNode.mstr n) with
  | none => simp only [h, addNode_edges]
  | some d => simp only [h]

/-- Edge effect of the genre loop body. -/
theorem genreStep_edges (i : Int) (g : MGraph) (gn : String) :
    (genreStep i g gn).edges = g.edges ++
      [(GNode.mid i, GNode.mstr (pyNorm gn), "MOVIE_HAS_GENRE"),
       (GNode.mstr (pyNorm gn), GNode.mid i, "GENRE_OF_MOVIES")] := by
  simp [genreStep, addEdge_edges, addNode_edges]

/-- Edge effect of the cast loop body. -/
theorem castStep_edges (i : Int) (g : MGraph) (c : String) :
    (castStep i g c).edges = g.edges ++
      [(GNode.mid i, GNode.mstr (pyNorm c), "MOVIE_HAS_ACTOR"),
       (GNode.mstr (pyNorm c), GNode.mid i, "ACTED_IN_MOVIES")] := by
  simp [castStep, addEdge_edges, ensurePerson_edges]

/-- Edge effect of the crew loop body. -/
theorem crewStep_edges (i : Int) (g : MGraph) (m : String × String) :
    (crewStep i g m).edges = g.edges ++
      [(GNode.mid i, GNode.mstr (pyNorm m.1),
         "MOVIE_HAS_" ++ pyUpper (classifyJob m.2)),
       (GNode.mstr (pyNorm m.1), GNode.mid i, crewRelation (classifyJob m.2))] := by
  simp [crewStep, addEdge_edges, ensurePerson_edges]

/-- Edge effect of the pairing loop body. -/
theorem pairStep_edges (a : String) (g : MGraph) (d : String) :
    (pairStep a g d).edges = g.edges ++
      [(GNode.mstr a, GNode.mstr d, "ACTOR_WORKED_WITH_DIRECTOR"),
       (GNode.mstr d, GNode.mstr a, "DIRECTOR_WORKED_WITH_ACTOR")] := by
  simp [pairStep, addEdge_edges]

/-- A fold whose step appends a fixed edge block per element appends
the concatenation of the blocks. -/
theorem foldl_edges {α : Type} (s : MGraph → α → MGraph)
    (f : α → List (GNode × GNode × String))
    (hs : ∀ g a, (s g a).edges = g.edges ++ f a) :
    ∀ (l : List α) (g : MGraph), (l.foldl s g).edges = g.edges ++ l.flatMap f := by
  intro l
  induction l with
  | nil => intro g; simp
  | cons a l ih => intro g; simp [List.foldl_cons, ih, hs, List.append_assoc]

/-- Edge effect of one whole row iteration. -/
theorem processRow_edges (g : MGraph) (r : Row) :
    (processRow g r).edges = g.edges ++ rowEdges r := by
  unfold processRow
  rw [foldl_edges (fun g a => (directorNodes r).foldl (pairStep a) g)
        (fun a => (directorNodes r).flatMap (fun d =>
          [(GNode.mstr a, GNode.mstr d, "ACTOR_WORKED_WITH_DIRECTOR"),
           (GNode.mstr d, GNode.mstr a, "DIRECTOR_WORKED_WITH_ACTOR")]))
        (fun g a => foldl_edges (pairStep a) _ (pairStep_edges a) (directorNodes r) g),
      foldl_edges (crewStep r.id) _ (crewStep_edges r.id),
      foldl_edges (castStep r.id) _ (castStep_edges r.id),
      foldl_edges (genreStep r.id) _ (genreStep_edges r.id),
      addEdge_edges, addEdge_edges, addNode_edges, addNode_edges]
  simp [rowEdges, List.append_assoc]

/-- The whole build appends the per-row blocks in order. -/
theorem build_graph_edges (rows : List Row) :
    (build_graph rows).edges = rows.flatMap rowEdges := by
  have h := foldl_edges processRow rowEdges processRow_edges rows MGraph.empty
  simpa [build_graph, MGraph.empty] using h

/-- `classifyJob` only ever produces one of the four job strings. -/
theorem classifyJob_cases (j : String) :
    classifyJob j = "director" ∨ classifyJob j = "producer" ∨
    classifyJob j = "writer" ∨ classifyJob j = "supporting_crew" := by
  unfold classifyJob
  by_cases h : pyNorm j = "director" ∨ pyNorm j = "producer" ∨ pyNorm j = "writer"
  · rcases h with h | h | h <;> simp [h]
  · simp [h]

/-- Neither crew relation string is the release relation. -/
theorem crew_relations_ne_release (j : String) :
    ("MOVIE_HAS_" ++ pyUpper (classifyJob j)) ≠ "MOVIE_RELEASED_ON" ∧
    crewRelation (classifyJob j) ≠ "MOVIE_RELEASED_ON" := by
  rcases classifyJob_cases j with h | h | h | h <;> rw [h] <;>
    exact ⟨by decide, by decide⟩

/-- Every edge of a row block other than the leading release edge has a
relation different from `MOVIE_RELEASED_ON`. -/
theorem rowEdges_tail_ne_release (r : Row) :
    ∀ e ∈ (rowEdges r).tail, e.2.2 ≠ "MOVIE_RELEASED_ON" := by
  intro e he
  simp only [rowEdges, List.tail_cons, List.mem_cons, List.mem_append,
    List.mem_flatMap] at he
  rcases he with rfl | (⟨gn, _, hgn⟩ | (⟨c, _, hc⟩ | (⟨m, _, hm⟩ | ⟨a, _, d, _, hd⟩)))
  · show ("YEAR_RELEASED_MOVIES" : String) ≠ "MOVIE_RELEASED_ON"
    decide
  · rcases hgn with rfl | rfl | h
    · show ("MOVIE_HAS_GENRE" : String) ≠ "MOVIE_RELEASED_ON"
      decide
    · show ("GENRE_OF_MOVIES" : String) ≠ "MOVIE_RELEASED_ON"
      decide
    · cases h
  · rcases hc with rfl | rfl | h
    · show ("MOVIE_HAS_ACTOR" : String) ≠ "MOVIE_RELEASED_ON"
      decide
    · show ("ACTED_IN_MOVIES" : String) ≠ "MOVIE_RELEASED_ON"
      decide
    · cases h
  · rcases hm with rfl | rfl | h
    · exact (crew_relations_ne_release m.2).1
    · exact (crew_relations_ne_release m.2).2
    · cases h
  · rcases hd with rfl | rfl | h
    · show ("ACTOR_WORKED_WITH_DIRECTOR" : String) ≠ "MOVIE_RELEASED_ON"
      decide
    · show ("DIRECTOR_WORKED_WITH_ACTOR" : String) ≠ "MOVIE_RELEASED_ON"
      decide
    · cases h

/-- Filtering a row block for outgoing release edges of movie `i`
yields the row's own release edge when the ids agree and nothing
otherwise. -/
theorem rowEdges_filter_release (r : Row) (i : Int) :
    (rowEdges r).filter
        (fun e => decide (e.1 = GNode.mid i ∧ e.2.2 = "MOVIE_RELEASED_ON")) =
      if r.id = i then
        [(GNode.mid r.id, GNode.mstr (launchYear r), "MOVIE_RELEASED_ON")]
      else [] := by
  have htail : (rowEdges r).tail.filter
      (fun e => decide (e.1 = GNode.mid i ∧ e.2.2 = "MOVIE_RELEASED_ON")) = [] := by
    rw [List.filter_eq_nil_iff]
    intro e he
    simp only [decide_eq_true_eq, not_and]
    intro _
    exact rowEdges_tail_ne_release r e he
  conv_lhs =>
    rw [show rowEdges r =
      (GNode.mid r.id, GNode.mstr (launchYear r), "MOVIE_RELEASED_ON") ::
        (rowEdges r).tail from rfl]
  rw [List.filter_cons]
  by_cases hid : r.id = i
  · subst hid
    rw [if_pos (by simp), htail, if_pos rfl]
  · rw [if_neg (by simp [hid]), htail, if_neg hid]

/-- Filtering distributes over `flatMap`. -/
theorem filter_flatMap_eq {α β : Type} (l : List α) (f : α → List β) (p : β → Bool) :
    (l.flatMap f).filter p = l.flatMap (fun a => (f a).filter p) := by
  induction l with
  | nil => rfl
  | cons a l ih => simp [List.flatMap_cons, List.filter_append, ih]

/-- With pairwise-distinct row ids, the block selected by one movie id
comes from exactly one row. -/
theorem flatMap_if_unique_id {β : Type} (mk : Row → β) :
    ∀ (rows : List Row), (rows.map Row.id).Nodup → ∀ r ∈ rows,
      rows.flatMap (fun x => if x.id = r.id then [mk x] else []) = [mk r] := by
  intro rows
  induction rows with
  | nil => intro _ r hr; cases hr
  | cons a l ih =>
    intro h r hr
    have hnd : (∀ x ∈ l, ¬ x.id = a.id) ∧ (l.map Row.id).Nodup := by
      simpa using h
    rcases List.mem_cons.mp hr with rfl | hrl
    · simp only [List.flatMap_cons, if_pos rfl]
      have hrest : l.flatMap (fun x => if x.id = r.id then [mk x] else []) = [] := by
        rw [List.flatMap_eq_nil_iff]
        intro x hx
        simp [hnd.1 x hx]
      simp [hrest]
    · have hne : a.id ≠ r.id := fun hEq => hnd.1 r hrl hEq.symm
      simp only [List.flatMap_cons, if_neg hne, List.nil_append]
      exact ih hnd.2 r hrl

/-- C1: in the built graph every ingested movie (with the dataframe's
ids pairwise distinct, as `drop_duplicates` guarantees) has exactly one
outgoing `MOVIE_RELEASED_ON` edge, its target is the year node derived
from the movie's release date, and that year node carries the
`YEAR_RELEASED_MOVIES` back-edge to the same movie. -/
theorem movie_release_edge_unique (rows : List Row)
    (hids : (rows.map Row.id).Nodup) (r : Row) (hr : r ∈ rows) :
    ((build_graph rows).edges.filter
        (fun e => decide (e.1 = GNode.mid r.id ∧ e.2.2 = "MOVIE_RELEASED_ON"))) =
      [(GNode.mid r.id, GNode.mstr (launchYear r), "MOVIE_RELEASED_ON")] ∧
    (GNode.mstr (launchYear r), GNode.mid r.id, "YEAR_RELEASED_MOVIES") ∈
      (build_graph rows).edges := by
  constructor
  · rw [build_graph_edges, filter_flatMap_eq]
    have hstep : rows.flatMap (fun x => (rowEdges x).filter
        (fun e => decide (e.1 = GNode.mid r.id ∧ e.2.2 = "MOVIE_RELEASED_ON"))) =
        rows.flatMap (fun x => if x.id = r.id then
          [(GNode.mid x.id, GNode.mstr (launchYear x), "MOVIE_RELEASED_ON")]
        else []) := by
      apply List.flatMap_congr
      intro x _
      exact rowEdges_filter_release x r.id
    rw [hstep, flatMap_if_unique_id _ rows hids r hr]
  · rw [build_graph_edges]
    exact List.mem_flatMap.mpr ⟨r, hr, by simp [rowEdges]⟩

set_option maxRecDepth 10000 in
/-- C1 witness: the release edge pair of the first sample row. -/
theorem movie_release_edge_unique_witness :
    ((build_graph dfS).edges.filter
        (fun e => decide (e.1 = GNode.mid rowA.id ∧
          e.2.2 = "MOVIE_RELEASED_ON"))) =
      [(GNode.mid rowA.id, GNode.mstr (launchYear rowA), "MOVIE_RELEASED_ON")] ∧
    (GNode.mstr (launchYear rowA), GNode.mid rowA.id, "YEAR_RELEASED_MOVIES") ∈
      (build_graph dfS).edges :=
  movie_release_edge_unique dfS (by decide) rowA (by decide)

/-- Characterization of the depth-first enumeration: with a duplicate-free
prefix that excludes the entry node, it produces exactly the extensions
of the prefix by a simple edge-path from the entry node to the target,
of at most `fuel` additional nodes, avoiding the prefix. -/
theorem spAux_mem (g : MGraph) (t : GNode) :
    ∀ (n : Nat) (pre : List GNode) (v : GNode) (p : List GNode),
      pre.Nodup → v ∉ pre →
      (p ∈ spAux g t n pre v ↔
        ∃ q, p = pre ++ q ∧ q.head? = some v ∧ q.getLast? = some t ∧
          q.Nodup ∧ (∀ x ∈ q, x ∉ pre) ∧ q.Chain' g.adj ∧ q.length ≤ n + 1) := by
  intro n
  induction n with
  | zero =>
    intro pre v p hpre hv
    simp only [spAux]
    constructor
    · intro hp
      split at hp
      · next hvt =>
        simp only [List.mem_singleton] at hp
        subst hp
        refine ⟨[v], rfl, rfl, by simp [hvt], List.nodup_singleton v, ?_, ?_, by simp⟩
        · intro x hx
          simp only [List.mem_singleton] at hx
          subst hx; exact hv
        · simp
      · next hvt => simp at hp
    · rintro ⟨q, hpq, hhead, hlast, hnd, hdisj, hchain, hlen⟩
      have hq : q = [v] := by
        cases q with
        | nil => simp at hhead
        | cons a q2 =>
          cases q2 with
          | nil =>
            simp only [List.head?_cons, Option.some.injEq] at hhead
            subst hhead; rfl
          | cons b q3 => simp at hlen
      subst hq
      have hvt : v = t := by simpa using hlast
      rw [if_pos hvt]
      simp [hpq]
  | succ n ihn =>
    intro pre v p hpre hv
    have hpre' : (pre ++ [v]).Nodup := by
      simp [List.nodup_append, hpre, hv]
    simp only [spAux, List.mem_append, List.mem_flatMap, List.mem_filter,
      decide_eq_true_eq]
    constructor
    · rintro (hp | ⟨w, ⟨hw1, hw2⟩, hrec⟩)
      · split at hp
        · next hvt =>
          simp only [List.mem_singleton] at hp
          subst hp
          refine ⟨[v], rfl, rfl, by simp [hvt], List.nodup_singleton v, ?_, ?_, by simp⟩
          · intro x hx
            simp only [List.mem_singleton] at hx
            subst hx; exact hv
          · simp
        · next hvt => simp at hp
      · obtain ⟨q', hpq, hh, hl, hnd, hdj, hch, hln⟩ :=
          (ihn (pre ++ [v]) w p hpre' (by simpa using hw2)).mp hrec
        obtain ⟨q2, rfl⟩ : ∃ q2, q' = w :: q2 := by
          cases q' with
          | nil => simp at hh
          | cons a q2 =>
            simp only [List.head?_cons, Option.some.injEq] at hh
            exact ⟨q2, by rw [hh]⟩
        refine ⟨v :: w :: q2, ?_, rfl, ?_, ?_, ?_, ?_, ?_⟩
        · rw [hpq]; simp
        · simpa using hl
        · rw [List.nodup_cons]
          refine ⟨?_, hnd⟩
          intro hvq
          exact (hdj v hvq) (by simp)
        · intro x hx
          rcases List.mem_cons.mp hx with rfl | hx2
          · exact hv
          · intro hxp
            exact (hdj x hx2) (by simp [hxp])
        · rw [List.chain'_cons]
          exact ⟨hw1, hch⟩
        · simp only [List.length_cons] at hln ⊢
          omega
    · rintro ⟨q, hpq, hhead, hlast, hnd, hdisj, hchain, hlen⟩
      obtain ⟨q', rfl⟩ : ∃ q', q = v :: q' := by
        cases q with
        | nil => simp at hhead
        | cons a q2 =>
          simp only [List.head?_cons, Option.some.injEq] at hhead
          exact ⟨q2, by rw [hhead]⟩
      cases q' with
      | nil =>
        left
        have hvt : v = t := by simpa using hlast
        rw [if_pos hvt]
        simp [hpq]
      | cons w q2 =>
        right
        have hnd2 := List.nodup_cons.mp hnd
        have hwv : w ≠ v := by
          intro hEq
          exact hnd2.1 (by simp [← hEq])
        have hwp : w ∉ pre := hdisj w (by simp)
        refine ⟨w, ⟨(List.chain'_cons.mp hchain).1, ?_⟩, ?_⟩
        · intro hmem
          rcases hmem with h1 | h1
          · exact hwp h1
          · exact hwv (by simpa using h1)
        · apply (ihn (pre ++ [v]) w p hpre' (by
            intro hmem
            rcases List.mem_append.mp hmem with h1 | h1
            · exact hwp h1
            · exact hwv (by simpa using h1))).mpr
          refine ⟨w :: q2, ?_, rfl, ?_, hnd2.2, ?_, (List.chain'_cons.mp hchain).2, ?_⟩
          · rw [hpq]; simp
          · simpa using hlast
          · intro x hx
            intro hmem
            rcases List.mem_append.mp hmem with h1 | h1
            · exact (hdisj x (by simp [hx])) h1
            · have hxv : x = v := by simpa using h1
              subst hxv
              exact hnd2.1 hx
          · simp only [List.length_cons] at hlen ⊢
            omega

/-- C2: for present endpoints, `all_paths_query` annotates exactly the
node paths produced by the simple-path enumeration, and a node path is
enumerated with bound `k` if and only if it is a directed path from `A`
to `B` with at most `k` edges visiting no node more than once. -/
theorem all_paths_query_exact (g : MGraph) (A B : GNode) (k : Nat)
    (hA : A ∈ g.nodeKeys) (hB : B ∈ g.nodeKeys) :
    all_paths_query g A B k = (nxAllSimplePaths g A B k).map (annotatePath g) ∧
    ∀ p, p ∈ nxAllSimplePaths g A B k ↔ IsSimplePathUpTo g A B k p := by
  constructor
  · unfold all_paths_query
    rw [if_pos ⟨hA, hB⟩]
  · intro p
    unfold nxAllSimplePaths IsSimplePathUpTo
    rw [spAux_mem g B k [] A p List.nodup_nil (List.not_mem_nil A)]
    constructor
    · rintro ⟨q, rfl, hh, hl, hnd, _, hch, hln⟩
      exact ⟨hh, hl, hnd, hch, hln⟩
    · rintro ⟨hh, hl, hnd, hch, hln⟩
      exact ⟨p, by simp, hh, hl, hnd, by simp, hch, hln⟩

set_option maxRecDepth 10000 in
/-- C2 witness: in the sample graph with present endpoints, the hop
from the actor to movie 1 is enumerated and satisfies the declarative
simple-path specification. -/
theorem all_paths_query_exact_witness :
    all_paths_query gS (.mstr "jane doe") (.mid 1) 3 =
      (nxAllSimplePaths gS (.mstr "jane doe") (.mid 1) 3).map (annotatePath gS) ∧
    ([GNode.mstr "jane doe", GNode.mid 1] ∈
        nxAllSimplePaths gS (.mstr "jane doe") (.mid 1) 3 ↔
      IsSimplePathUpTo gS (.mstr "jane doe") (.mid 1) 3
        [GNode.mstr "jane doe", GNode.mid 1]) :=
  ⟨(all_paths_query_exact gS (.mstr "jane doe") (.mid 1) 3
      (by decide) (by decide)).1,
   (all_paths_query_exact gS (.mstr "jane doe") (.mid 1) 3
      (by decide) (by decide)).2 [GNode.mstr "jane doe", GNode.mid 1]⟩

/-- Membership in the first-occurrence deduplication. -/
theorem firstDedup_aux_mem (x : GNode) :
    ∀ (l acc : List GNode),
      (x ∈ l.foldl (fun acc y => if y ∈ acc then acc else acc ++ [y]) acc ↔
        x ∈ acc ∨ x ∈ l) := by
  intro l
  induction l with
  | nil => intro acc; simp
  | cons a l ih =>
    intro acc
    simp only [List.foldl_cons]
    by_cases h : a ∈ acc
    · rw [if_pos h, ih]
      simp only [List.mem_cons]
      constructor
      · rintro (h1 | h1)
        · exact Or.inl h1
        · exact Or.inr (Or.inr h1)
      · rintro (h1 | rfl | h1)
        · exact Or.inl h1
        · exact Or.inl h
        · exact Or.inr h1
    · rw [if_neg h, ih]
      simp only [List.mem_append, List.mem_singleton, List.mem_cons]
      tauto

/-- The adjacency view and the edge view of successors agree. -/
theorem succs_mem (g : MGraph) (v x : GNode) :
    x ∈ g.succs v ↔ x ∈ g.succsE v := by
  unfold MGraph.succs firstDedup
  rw [firstDedup_aux_mem]
  simp

/-- Soundness of the breadth-first search: under the queue invariant,
any returned path really is an edge path from the source to the
target. -/
theorem bfsAux_sound (g : MGraph) (t s : GNode) :
    ∀ (n : Nat) (queue : List (List GNode)) (visited : List GNode)
      (p : List GNode),
      (∀ q ∈ queue, QInv g s q) →
      bfsAux g t n queue visited = some p →
      p.head? = some s ∧ p.getLast? = some t ∧ p.Chain' g.adj := by
  intro n
  induction n with
  | zero => intro queue visited p _ h; simp [bfsAux] at h
  | succ n ih =>
    intro queue visited p hinv h
    cases queue with
    | nil => simp [bfsAux] at h
    | cons q rest =>
      have hq := hinv q (List.mem_cons_self q rest)
      cases q with
      | nil => exact absurd rfl hq.1
      | cons cur q2 =>
        simp only [bfsAux] at h
        split at h
        · next hct =>
          injection h with h2
          subst h2
          refine ⟨?_, ?_, ?_⟩
          · rw [List.head?_reverse]
            exact hq.2.1
          · rw [List.getLast?_reverse]
            simp [hct]
          · exact hq.2.2
        · next hct =>
          apply ih _ _ p ?_ h
          intro q' hq'
          rcases List.mem_append.mp hq' with h1 | h1
          · exact hinv q' (List.mem_cons_of_mem _ h1)
          · obtain ⟨w, hw, rfl⟩ := List.mem_map.mp h1
            have hwsucc : w ∈ g.succs cur := (List.mem_filter.mp hw).1
            refine ⟨by simp, ?_, ?_⟩
            · rw [List.getLast?_cons_cons]
              exact hq.2.1
            · rw [List.reverse_cons]
              apply List.Chain'.append hq.2.2 (List.chain'_singleton w)
              intro x hx y hy
              have hx2 : cur = x := by
                rw [List.getLast?_reverse] at hx
                simpa using hx
              have hy2 : w = y := by simpa using hy
              subst hx2
              subst hy2
              exact (succs_mem g cur w).mp hwsucc

/-- C4: for a present node `A`, `shortest_path_query(A, A)` is the
length-0 path holding only `A` (a single descriptor with no hop
annotation), and for present nodes with no directed path between them
it is the explicit not-found signal `None` (no exception). -/
theorem shortest_path_same_and_disconnected (g : MGraph) (A B : GNode)
    (hA : A ∈ g.nodeKeys) (hB : B ∈ g.nodeKeys) :
    shortest_path_query g A A =
      some [⟨A, descLabel g A, descTitle g A, none⟩] ∧
    (¬ Reachable g A B → shortest_path_query g A B = none) := by
  constructor
  · unfold shortest_path_query
    rw [if_pos ⟨hA, hA⟩]
    unfold nxShortestPath
    have hbfs : bfsAux g A (g.nodes.length + 1) [[A]] [A] = some [A] := by
      simp [bfsAux]
    rw [hbfs]
    rfl
  · intro hnr
    unfold shortest_path_query
    rw [if_pos ⟨hA, hB⟩]
    unfold nxShortestPath
    cases hres : bfsAux g B (g.nodes.length + 1) [[A]] [A] with
    | none => rfl
    | some p =>
      exfalso
      have hinv : ∀ q ∈ [[A]], QInv g A q := by
        intro q hqm
        have hq1 : q = [A] := by simpa using hqm
        subst hq1
        unfold QInv
        refine ⟨by simp, by simp, by simp⟩
      have hsound :=
        bfsAux_sound g B A (g.nodes.length + 1) [[A]] [A] p hinv hres
      exact hnr ⟨p, hsound⟩

set_option maxRecDepth 10000 in
/-- C4 witness: the same-node query on a present sample node. -/
theorem shortest_path_same_witness :
    shortest_path_query gS (GNode.mid 1) (GNode.mid 1) =
      some [⟨GNode.mid 1, descLabel gS (GNode.mid 1),
        descTitle gS (GNode.mid 1), none⟩] :=
  (shortest_path_same_and_disconnected gS (GNode.mid 1) (GNode.mid 2)
    (by decide) (by decide)).1
